import Mathlib

/-!
Shallow embedding of the MediTrack Lite inventory ledger and alert routes:
the handlers in src/backend/src/routes/inventory.ts and
src/backend/src/routes/alerts.ts, the Joi validation schemas of the
validation middleware, and the error classes of the error-handler
middleware.  Database rows are lists of records; the sequential execution
of one Express handler is one Lean function from state to `Except`;
every `throw` in a handler happens before its first database write, so an
error result leaves the state unchanged.
-/

/-- Stock adjustment types accepted by inventorySchemas.stockAdjustment
    (Joi valid list: IN, OUT, ADJUSTMENT, EXPIRED, DAMAGED). -/
inductive AdjType where
  | IN
  | OUT
  | ADJUSTMENT
  | EXPIRED
  | DAMAGED
deriving DecidableEq

/-- The error classes defined by the error-handler middleware:
    ValidationError (400), NotFoundError (404), UnauthorizedError (401),
    ForbiddenError (403), ConflictError (409).  The source defines no
    insufficient-stock error class. -/
inductive AppErr where
  | validation (msg : String)
  | notFound (resource : String)
  | unauthorized (msg : String)
  | forbidden (msg : String)
  | conflict (msg : String)
deriving DecidableEq

/-- A row of the items table (the fields the inventory routes read). -/
structure Item where
  id : Nat
  clinicId : Nat
  threshold : Int
  isActive : Bool
deriving DecidableEq

/-- A row of the batches table. -/
structure Batch where
  id : Nat
  batchNumber : String
  lotNumber : Option String
  expiryDate : Option Int
  quantity : Int
  itemId : Nat
deriving DecidableEq

/-- A row of the stock_adjustments table. -/
structure Adjustment where
  type : AdjType
  quantity : Int
  reason : Option String
  notes : Option String
  itemId : Nat
  batchId : Option Nat
  userId : Nat
deriving DecidableEq

/-- Request body of POST /:id/batches (inventorySchemas.createBatch). -/
structure CreateBatchBody where
  batchNumber : String
  lotNumber : Option String
  expiryDate : Option Int
  quantity : Int
deriving DecidableEq

/-- Request body of POST /:id/adjust (inventorySchemas.stockAdjustment). -/
structure AdjustBody where
  type : AdjType
  quantity : Int
  reason : Option String
  notes : Option String
  batchId : Option Nat
deriving DecidableEq

/-- The inventory tables; `nextId` models the id generator for new
    batch rows. -/
structure St where
  items : List Item
  batches : List Batch
  adjustments : List Adjustment
  nextId : Nat
deriving DecidableEq

/-- The three outbound adjustment types of the guard in POST /:id/adjust
    (type OUT, EXPIRED or DAMAGED). -/
def isOutbound : AdjType → Bool
  | AdjType.OUT => true
  | AdjType.EXPIRED => true
  | AdjType.DAMAGED => true
  | _ => false

/-- The custom Joi sign rule of inventorySchemas.stockAdjustment.quantity:
    for OUT, EXPIRED and DAMAGED the value passes iff it is <= 0;
    for every other type (IN, ADJUSTMENT) it passes iff it is > 0. -/
def validAdjustQuantity (t : AdjType) (q : Int) : Bool :=
  if isOutbound t then decide (q ≤ 0) else decide (0 < q)

def optLen : Option String → Nat
  | none => 0
  | some s => s.length

/-- Body validation of POST /:id/adjust: the quantity sign rule plus the
    length bounds on reason (max 200) and notes (max 500). -/
def validAdjustBody (b : AdjustBody) : Bool :=
  validAdjustQuantity b.type b.quantity &&
    decide (optLen b.reason ≤ 200) && decide (optLen b.notes ≤ 500)

/-- Body validation of POST /:id/batches: batchNumber length 1..100,
    lotNumber max 100, quantity an integer >= 0. -/
def validCreateBatchBody (b : CreateBatchBody) : Bool :=
  decide (1 ≤ b.batchNumber.length) && decide (b.batchNumber.length ≤ 100) &&
    decide (optLen b.lotNumber ≤ 100) && decide (0 ≤ b.quantity)

/-- prisma.item.findFirst with where id, clinicId, isActive: true. -/
def findItem (s : St) (c iid : Nat) : Option Item :=
  s.items.find? fun it => it.id == iid && it.clinicId == c && it.isActive

/-- prisma.batch.findFirst with where id: batchId, itemId: id. -/
def findBatch (s : St) (bid iid : Nat) : Option Batch :=
  s.batches.find? fun b => b.id == bid && b.itemId == iid

/-- The ledger row inserted by POST /:id/adjust. -/
def mkAdjRow (iid u : Nat) (body : AdjustBody) : Adjustment :=
  { type := body.type, quantity := body.quantity, reason := body.reason,
    notes := body.notes, itemId := iid, batchId := body.batchId, userId := u }

/-- The batch row created by POST /:id/batches. -/
def mkNewBatch (s : St) (iid : Nat) (body : CreateBatchBody) : Batch :=
  { id := s.nextId, batchNumber := body.batchNumber,
    lotNumber := body.lotNumber, expiryDate := body.expiryDate,
    quantity := body.quantity, itemId := iid }

/-- The initial IN ledger row created by POST /:id/batches for the new
    batch's starting quantity. -/
def mkInitialAdj (s : St) (u iid : Nat) (body : CreateBatchBody) : Adjustment :=
  { type := AdjType.IN, quantity := body.quantity,
    reason := some "New batch created", notes := none, itemId := iid,
    batchId := some s.nextId, userId := u }

/-- POST /:id/batches: after validation and the item lookup, reject a
    duplicate batchNumber for the item with ValidationError; otherwise
    create the batch row and the initial IN ledger row for its starting
    quantity. -/
def createBatch (s : St) (c u iid : Nat) (body : CreateBatchBody) :
    Except AppErr St :=
  if validCreateBatchBody body = true then
    match findItem s c iid with
    | none => AppErr.notFound "Item" |> Except.error
    | some _ =>
      if s.batches.any
          (fun b => b.itemId == iid && b.batchNumber == body.batchNumber) then
        AppErr.validation "Batch number already exists for this item"
          |> Except.error
      else
        Except.ok { s with
          batches := mkNewBatch s iid body :: s.batches,
          adjustments := mkInitialAdj s u iid body :: s.adjustments,
          nextId := s.nextId + 1 }
  else
    AppErr.validation "Invalid request body" |> Except.error

/-- The prisma batch update of POST /:id/adjust: increment the quantity
    of the batch with the given id by the signed delta. -/
def updBatch (bid : Nat) (q : Int) (b : Batch) : Batch :=
  if b.id = bid then { b with quantity := b.quantity + q } else b

/-- POST /:id/adjust: after validation and the item lookup, a given
    batchId must belong to the item (else ValidationError); for OUT,
    EXPIRED and DAMAGED the batch must hold at least the absolute delta
    (else ValidationError with message Insufficient quantity in batch);
    then the ledger row is inserted and, when a batch is set, its
    quantity is incremented by the signed delta. -/
def adjustStock (s : St) (c u iid : Nat) (body : AdjustBody) :
    Except AppErr St :=
  if validAdjustBody body = true then
    match findItem s c iid with
    | none => AppErr.notFound "Item" |> Except.error
    | some _ =>
      match body.batchId with
      | some bid =>
        match findBatch s bid iid with
        | none => AppErr.validation "Invalid batch ID for this item"
            |> Except.error
        | some batch =>
          if isOutbound body.type && decide (batch.quantity < |body.quantity|)
          then
            AppErr.validation "Insufficient quantity in batch" |> Except.error
          else
            Except.ok { s with
              adjustments := mkAdjRow iid u body :: s.adjustments,
              batches := s.batches.map (updBatch bid body.quantity) }
      | none =>
        Except.ok { s with adjustments := mkAdjRow iid u body :: s.adjustments }
  else
    AppErr.validation "Invalid request body" |> Except.error

/-- One client call against the inventory routes. -/
inductive Op where
  | createB (c u iid : Nat) (body : CreateBatchBody)
  | adjust (c u iid : Nat) (body : AdjustBody)
deriving DecidableEq

/-- Run one call; a thrown error leaves the tables unchanged (every throw
    in the two handlers happens before the first database write). -/
def runOp (s : St) : Op → St
  | Op.createB c u iid body =>
    match createBatch s c u iid body with
    | Except.ok s1 => s1
    | Except.error _ => s
  | Op.adjust c u iid body =>
    match adjustStock s c u iid body with
    | Except.ok s1 => s1
    | Except.error _ => s

/-- Run a sequence of calls. -/
def run (s : St) : List Op → St
  | [] => s
  | op :: ops => run (runOp s op) ops

/-- An initial database holding items but no batches and no adjustments. -/
def mkInit (items : List Item) : St :=
  { items := items, batches := [], adjustments := [], nextId := 0 }

/-- Sum of the signed deltas of the ledger rows referencing batch id i. -/
def adjSum (adjs : List Adjustment) (i : Nat) : Int :=
  ((adjs.filter fun a => decide (a.batchId = some i)).map
    Adjustment.quantity).sum

/-- The three stock status values. -/
inductive StockStatus where
  | OUT_OF_STOCK
  | LOW_STOCK
  | IN_STOCK
deriving DecidableEq

/-- The getStockStatus helper of the inventory routes: OUT_OF_STOCK when
    the total is 0, LOW_STOCK when it is <= the threshold, IN_STOCK
    otherwise. -/
def getStockStatus (totalQuantity threshold : Int) : StockStatus :=
  if totalQuantity = 0 then StockStatus.OUT_OF_STOCK
  else if totalQuantity ≤ threshold then StockStatus.LOW_STOCK
  else StockStatus.IN_STOCK

/-- The batches the GET / aggregation reads for an item: its batches with
    quantity > 0 (prisma include batches where quantity gt 0). -/
def availableBatches (batches : List Batch) (iid : Nat) : List Batch :=
  batches.filter fun b => b.itemId == iid && decide (0 < b.quantity)

/-- totalQuantity of an item: the sum of the quantities of its batches
    with quantity > 0 (the reduce in GET /). -/
def itemTotalQuantity (batches : List Batch) (iid : Nat) : Int :=
  ((availableBatches batches iid).map Batch.quantity).sum

/-- Alert and alert rule types (Joi valid list of the alert schemas). -/
inductive AlertType where
  | LOW_STOCK
  | EXPIRING_SOON
  | EXPIRED
  | CUSTOM
deriving DecidableEq

/-- Alert severity values. -/
inductive Severity where
  | LOW
  | MEDIUM
  | HIGH
  | CRITICAL
deriving DecidableEq

/-- A row of the alert_rules table (the fields the alert routes read). -/
structure AlertRule where
  id : Nat
  name : String
  type : AlertType
  clinicId : Nat
  itemId : Option Nat
  isActive : Bool
deriving DecidableEq

/-- A row of the alerts table; isRead and isResolved default to false on
    creation. -/
structure Alert where
  id : Nat
  type : AlertType
  title : String
  severity : Severity
  isRead : Bool
  isResolved : Bool
  ruleId : Option Nat
deriving DecidableEq

/-- The alert tables; `nextAlertId` models the id generator for new
    alert rows. -/
structure AlertSt where
  rules : List AlertRule
  alerts : List Alert
  nextAlertId : Nat
deriving DecidableEq

/-- prisma.alertRule.findFirst with where id, clinicId, isActive: true
    (the lookup of POST /rules/:id/test). -/
def findRule (s : AlertSt) (c rid : Nat) : Option AlertRule :=
  s.rules.find? fun r => r.id == rid && r.clinicId == c && r.isActive

/-- The alert row created by POST /rules/:id/test: severity LOW, the
    rule's type, read and resolved flags at their false defaults. -/
def mkTestAlert (s : AlertSt) (rule : AlertRule) : Alert :=
  { id := s.nextAlertId, type := rule.type,
    title := "Test Alert: " ++ rule.name, severity := Severity.LOW,
    isRead := false, isResolved := false, ruleId := some rule.id }

/-- POST /rules/:id/test: look up the active rule of the clinic and
    unconditionally create one alert row; no existing alert is consulted
    before the insert. -/
def testRule (s : AlertSt) (c rid : Nat) : Except AppErr AlertSt :=
  match findRule s c rid with
  | none => AppErr.notFound "Alert rule" |> Except.error
  | some rule =>
    Except.ok { s with alerts := mkTestAlert s rule :: s.alerts,
                       nextAlertId := s.nextAlertId + 1 }

/-- An alert is visible to a clinic when its rule relation matches the
    clinic (the where rule clinicId filter of the alert routes); a null
    ruleId matches no clinic. -/
def alertInClinic (s : AlertSt) (c : Nat) (a : Alert) : Bool :=
  match a.ruleId with
  | none => false
  | some rid => s.rules.any fun r => r.id == rid && r.clinicId == c

/-- The prisma update of PATCH /:id/read: set isRead on the alert with
    the given id. -/
def readUpd (aid : Nat) (a : Alert) : Alert :=
  if a.id = aid then { a with isRead := true } else a

/-- The prisma update of PATCH /:id/resolve: set isResolved and force
    isRead in the same update on the alert with the given id. -/
def resolveUpd (aid : Nat) (a : Alert) : Alert :=
  if a.id = aid then { a with isRead := true, isResolved := true } else a

/-- The prisma updateMany of PATCH /bulk/read: set isRead on every alert
    whose id is in the requested list. -/
def bulkReadUpd (ids : List Nat) (a : Alert) : Alert :=
  if (ids.contains a.id) then { a with isRead := true } else a

/-- PATCH /:id/read: look up the alert through its rule's clinic, then
    set isRead to true. -/
def markRead (s : AlertSt) (c aid : Nat) : Except AppErr AlertSt :=
  match s.alerts.find? (fun a => a.id == aid && alertInClinic s c a) with
  | none => AppErr.notFound "Alert" |> Except.error
  | some _ =>
    Except.ok { s with alerts := s.alerts.map (readUpd aid) }

/-- PATCH /:id/resolve: look up the alert through its rule's clinic, then
    set isResolved to true and force isRead to true in the same update. -/
def resolveAlert (s : AlertSt) (c aid : Nat) : Except AppErr AlertSt :=
  match s.alerts.find? (fun a => a.id == aid && alertInClinic s c a) with
  | none => AppErr.notFound "Alert" |> Except.error
  | some _ =>
    Except.ok { s with alerts := s.alerts.map (resolveUpd aid) }

/-- PATCH /bulk/read: the body needs at least one id; all requested
    alerts must be found through the clinic check (else ValidationError);
    the updateMany then sets isRead to true on every alert whose id is
    in the list. -/
def bulkRead (s : AlertSt) (c : Nat) (ids : List Nat) : Except AppErr AlertSt :=
  if ids.length < 1 then
    AppErr.validation "Invalid request body" |> Except.error
  else
    if (s.alerts.filter fun a =>
        ids.contains a.id && alertInClinic s c a).length ≠ ids.length then
      AppErr.validation "Some alerts not found or do not belong to your clinic"
        |> Except.error
    else
      Except.ok { s with alerts := s.alerts.map (bulkReadUpd ids) }

/-- One client call against the alert routes. -/
inductive AOp where
  | testA (c rid : Nat)
  | readA (c aid : Nat)
  | resolveA (c aid : Nat)
  | bulkReadA (c : Nat) (ids : List Nat)
deriving DecidableEq

/-- Run one alert call; a thrown error leaves the tables unchanged. -/
def runAOp (s : AlertSt) : AOp → AlertSt
  | AOp.testA c rid =>
    match testRule s c rid with
    | Except.ok s1 => s1
    | Except.error _ => s
  | AOp.readA c aid =>
    match markRead s c aid with
    | Except.ok s1 => s1
    | Except.error _ => s
  | AOp.resolveA c aid =>
    match resolveAlert s c aid with
    | Except.ok s1 => s1
    | Except.error _ => s
  | AOp.bulkReadA c ids =>
    match bulkRead s c ids with
    | Except.ok s1 => s1
    | Except.error _ => s

/-- Run a sequence of alert calls. -/
def runAlert (s : AlertSt) : List AOp → AlertSt
  | [] => s
  | op :: ops => runAlert (runAOp s op) ops

/-- Flag order on alert rows: neither isRead nor isResolved is unset. -/
def flagLe (a b : Alert) : Prop :=
  (a.isRead = true → b.isRead = true) ∧
    (a.isResolved = true → b.isResolved = true)

deriving instance DecidableEq for Except

/-- Well-formedness of the inventory tables, preserved by every call:
    batch ids are below the id generator and pairwise distinct, batch
    quantities are non-negative, ledger rows only reference already
    generated batch ids, the ledger deltas of each batch sum to its
    quantity, and batch numbers are unique per item. -/
def StInv (s : St) : Prop :=
  (∀ b ∈ s.batches, b.id < s.nextId) ∧
    (s.batches.map Batch.id).Nodup ∧
    (∀ b ∈ s.batches, 0 ≤ b.quantity) ∧
    (∀ a ∈ s.adjustments, ∀ i, a.batchId = some i → i < s.nextId) ∧
    (∀ b ∈ s.batches, adjSum s.adjustments b.id = b.quantity) ∧
    s.batches.Pairwise
      (fun b1 b2 => b1.itemId = b2.itemId → b1.batchNumber ≠ b2.batchNumber)

/-- Example item used by the concrete witnesses below. -/
def exItem : Item := { id := 1, clinicId := 1, threshold := 20, isActive := true }

def exCreate : CreateBatchBody :=
  { batchNumber := "B1", lotNumber := none, expiryDate := none, quantity := 100 }

def exS0 : St := mkInit [exItem]

/-- State after creating batch B1 with quantity 100 for the example item. -/
def exS1 : St := runOp exS0 (Op.createB 1 1 1 exCreate)

/-- A batch of the example item holding 15 units. -/
def exBatch15 : Batch :=
  { id := 0, batchNumber := "B1", lotNumber := none, expiryDate := none,
    quantity := 15, itemId := 1 }

def exS15 : St :=
  { items := [exItem], batches := [exBatch15], adjustments := [], nextId := 1 }

def exOutBig : AdjustBody :=
  { type := AdjType.OUT, quantity := -1000, reason := none, notes := none,
    batchId := some 0 }

def exOut16 : AdjustBody :=
  { type := AdjType.OUT, quantity := -16, reason := none, notes := none,
    batchId := some 0 }

def exOutNoBatch : AdjustBody :=
  { type := AdjType.OUT, quantity := -1000000, reason := none, notes := none,
    batchId := none }

def exAdjNeg : AdjustBody :=
  { type := AdjType.ADJUSTMENT, quantity := -1, reason := none, notes := none,
    batchId := none }

def exRule : AlertRule :=
  { id := 1, name := "Low Stock Alert", type := AlertType.LOW_STOCK,
    clinicId := 1, itemId := none, isActive := true }

def exAlerts0 : AlertSt := { rules := [exRule], alerts := [], nextAlertId := 0 }

/-- An alert in the OPEN state. -/
def exOpenAlert : Alert :=
  { id := 0, type := AlertType.LOW_STOCK, title := "t",
    severity := Severity.MEDIUM, isRead := false, isResolved := false,
    ruleId := some 1 }

def exAlerts1 : AlertSt :=
  { rules := [exRule], alerts := [exOpenAlert], nextAlertId := 1 }

theorem itemTotalQuantity_nonneg (batches : List Batch) (iid : Nat) :
    0 ≤ itemTotalQuantity batches iid := by
  unfold itemTotalQuantity
  apply List.sum_nonneg
  intro x hx
  rcases List.mem_map.mp hx with ⟨b, hb, rfl⟩
  unfold availableBatches at hb
  have hp := List.of_mem_filter hb
  simp only [Bool.and_eq_true, decide_eq_true_eq] at hp
  exact le_of_lt hp.2

/-- Claim C6: the derived stock status is OUT_OF_STOCK exactly when the
    item's totalQuantity (the sum over its batches with quantity > 0) is
    zero, LOW_STOCK exactly when it is positive and at most the item's
    threshold (inclusive at the boundary), and IN_STOCK exactly when it
    exceeds the threshold. -/
theorem claim6_stock_status_boundaries (batches : List Batch) (iid : Nat)
    (threshold : Int) :
    (getStockStatus (itemTotalQuantity batches iid) threshold
        = StockStatus.OUT_OF_STOCK ↔ itemTotalQuantity batches iid = 0) ∧
    (getStockStatus (itemTotalQuantity batches iid) threshold
        = StockStatus.LOW_STOCK ↔
      0 < itemTotalQuantity batches iid ∧
        itemTotalQuantity batches iid ≤ threshold) ∧
    (getStockStatus (itemTotalQuantity batches iid) threshold
        = StockStatus.IN_STOCK ↔
      0 < itemTotalQuantity batches iid ∧
        threshold < itemTotalQuantity batches iid) := by
  have h0 := itemTotalQuantity_nonneg batches iid
  unfold getStockStatus
  split_ifs with h1 h2 <;> simp_all <;> omega

/-- Claim C7 counterexample: the Joi sign rule accepts a zero delta for
    the outbound type OUT (the claim requires strictly negative deltas
    there) and rejects a negative delta for type ADJUSTMENT, the
    correction type (the claim allows either sign there). -/
theorem claim7_cex :
    validAdjustQuantity AdjType.ADJUSTMENT (-1) = false ∧
      validAdjustQuantity AdjType.OUT 0 = true := by decide

/-- Claim C7 amended: the sign rule accepts a delta for OUT, EXPIRED and
    DAMAGED exactly when it is <= 0 (zero allowed, not strictly
    negative), and for IN and for ADJUSTMENT exactly when it is strictly
    positive (ADJUSTMENT does not admit either sign); a body that fails
    validation is rejected with a ValidationError. -/
theorem claim7_sign_rules :
    (∀ q : Int,
      (validAdjustQuantity AdjType.OUT q = true ↔ q ≤ 0) ∧
      (validAdjustQuantity AdjType.EXPIRED q = true ↔ q ≤ 0) ∧
      (validAdjustQuantity AdjType.DAMAGED q = true ↔ q ≤ 0) ∧
      (validAdjustQuantity AdjType.IN q = true ↔ 0 < q) ∧
      (validAdjustQuantity AdjType.ADJUSTMENT q = true ↔ 0 < q)) ∧
    (∀ (s : St) (c u iid : Nat) (body : AdjustBody),
      validAdjustBody body = false →
      adjustStock s c u iid body =
        Except.error (AppErr.validation "Invalid request body")) := by
  constructor
  · intro q
    refine ⟨?_, ?_, ?_, ?_, ?_⟩ <;> simp [validAdjustQuantity, isOutbound]
  · intro s c u iid body h
    unfold adjustStock
    rw [h]
    simp

theorem claim7_sign_rules_witness :
    adjustStock exS15 1 1 1 exAdjNeg =
      Except.error (AppErr.validation "Invalid request body") :=
  claim7_sign_rules.2 exS15 1 1 1 exAdjNeg (by decide)

/-- Claim C3 counterexample: two successive invocations of the alert
    creation path (POST /rules/:id/test, the only alert-creating code in
    the routes) with no intervening state change create two new alerts,
    not at most one; the handler consults no existing alert before the
    insert. -/
theorem claim3_cex :
    (runAlert exAlerts0 [AOp.testA 1 1, AOp.testA 1 1]).alerts.length = 2 := by
  decide

/-- Claim C3 amended: the alert creation path performs no deduplication:
    every invocation that finds its active rule unconditionally creates
    one new alert, so two invocations in succession with no intervening
    state change create exactly two new alerts, even when an unresolved
    alert for the same rule and type already exists. -/
theorem claim3_no_dedup (s : AlertSt) (c rid : Nat) (rule : AlertRule)
    (h : findRule s c rid = some rule) :
    testRule s c rid = Except.ok { s with
      alerts := mkTestAlert s rule :: s.alerts,
      nextAlertId := s.nextAlertId + 1 } ∧
    (runAlert s [AOp.testA c rid, AOp.testA c rid]).alerts.length
      = s.alerts.length + 2 := by
  have h1 : testRule s c rid = Except.ok { s with
      alerts := mkTestAlert s rule :: s.alerts,
      nextAlertId := s.nextAlertId + 1 } := by
    unfold testRule
    rw [h]
  refine ⟨h1, ?_⟩
  have h2 : findRule { s with
      alerts := mkTestAlert s rule :: s.alerts,
      nextAlertId := s.nextAlertId + 1 } c rid = some rule := h
  have h3 : testRule { s with
      alerts := mkTestAlert s rule :: s.alerts,
      nextAlertId := s.nextAlertId + 1 } c rid = Except.ok { s with
      alerts := mkTestAlert { s with
          alerts := mkTestAlert s rule :: s.alerts,
          nextAlertId := s.nextAlertId + 1 } rule ::
        mkTestAlert s rule :: s.alerts,
      nextAlertId := s.nextAlertId + 1 + 1 } := by
    unfold testRule
    rw [h2]
  simp only [runAlert, runAOp, h1, h3]
  simp [List.length_cons]

theorem claim3_no_dedup_witness :
    (runAlert exAlerts1 [AOp.testA 1 1, AOp.testA 1 1]).alerts.length
      = exAlerts1.alerts.length + 2 :=
  (claim3_no_dedup exAlerts1 1 1 exRule (by decide)).2

theorem findItem_eq_some (s : St) (c iid : Nat) (it : Item)
    (h : findItem s c iid = some it) :
    it ∈ s.items ∧ it.id = iid ∧ it.clinicId = c ∧ it.isActive = true := by
  unfold findItem at h
  have hm := List.mem_of_find?_eq_some h
  have hp := List.find?_some h
  simp only [Bool.and_eq_true, beq_iff_eq] at hp
  exact ⟨hm, hp.1.1, hp.1.2, hp.2⟩

theorem findBatch_eq_some (s : St) (bid iid : Nat) (b : Batch)
    (h : findBatch s bid iid = some b) :
    b ∈ s.batches ∧ b.id = bid ∧ b.itemId = iid := by
  unfold findBatch at h
  have hm := List.mem_of_find?_eq_some h
  have hp := List.find?_some h
  simp only [Bool.and_eq_true, beq_iff_eq] at hp
  exact ⟨hm, hp.1, hp.2⟩

theorem adjustStock_ok_shape (s : St) (c u iid : Nat) (body : AdjustBody)
    (s1 : St) (h : adjustStock s c u iid body = Except.ok s1) :
    validAdjustBody body = true ∧
    s1.items = s.items ∧ s1.nextId = s.nextId ∧
    s1.adjustments = mkAdjRow iid u body :: s.adjustments ∧
    ((body.batchId = none ∧ s1.batches = s.batches) ∨
     (∃ bid batch, body.batchId = some bid ∧
        findBatch s bid iid = some batch ∧
        (isOutbound body.type = true → |body.quantity| ≤ batch.quantity) ∧
        s1.batches = s.batches.map (updBatch bid body.quantity))) := by
  unfold adjustStock at h
  by_cases hv : validAdjustBody body = true
  · rw [if_pos hv] at h
    rcases hit : findItem s c iid with _ | it
    · simp only [hit] at h
      exact absurd h (by simp)
    · simp only [hit] at h
      rcases hb : body.batchId with _ | bid
      · simp only [hb] at h
        injection h with h
        subst h
        exact ⟨hv, rfl, rfl, rfl, Or.inl ⟨rfl, rfl⟩⟩
      · simp only [hb] at h
        rcases hf : findBatch s bid iid with _ | batch
        · simp only [hf] at h
          exact absurd h (by simp)
        · simp only [hf] at h
          by_cases hg :
              (isOutbound body.type &&
                decide (batch.quantity < |body.quantity|)) = true
          · rw [if_pos hg] at h
            exact absurd h (by simp)
          · rw [if_neg hg] at h
            injection h with h
            subst h
            refine ⟨hv, rfl, rfl, rfl, Or.inr ⟨bid, batch, rfl, hf, ?_, rfl⟩⟩
            intro ht
            simp only [Bool.and_eq_true, decide_eq_true_eq, not_and] at hg
            exact le_of_not_lt (hg ht)
  · rw [if_neg hv] at h
    exact absurd h (by simp)

theorem createBatch_ok_shape (s : St) (c u iid : Nat) (body : CreateBatchBody)
    (s1 : St) (h : createBatch s c u iid body = Except.ok s1) :
    validCreateBatchBody body = true ∧
    (∀ b ∈ s.batches, b.itemId = iid → b.batchNumber ≠ body.batchNumber) ∧
    s1 = { s with
      batches := mkNewBatch s iid body :: s.batches,
      adjustments := mkInitialAdj s u iid body :: s.adjustments,
      nextId := s.nextId + 1 } := by
  unfold createBatch at h
  by_cases hv : validCreateBatchBody body = true
  · rw [if_pos hv] at h
    rcases hit : findItem s c iid with _ | it
    · simp only [hit] at h
      exact absurd h (by simp)
    · simp only [hit] at h
      by_cases hd : (s.batches.any
          fun b => b.itemId == iid && b.batchNumber == body.batchNumber) = true
      · rw [if_pos hd] at h
        exact absurd h (by simp)
      · rw [if_neg hd] at h
        injection h with h
        refine ⟨hv, ?_, h.symm⟩
        intro b hbmem hbitem hbnum
        apply hd
        rw [List.any_eq_true]
        exact ⟨b, hbmem, by simp [hbitem, hbnum]⟩
  · rw [if_neg hv] at h
    exact absurd h (by simp)

theorem runOp_adjust_error (s : St) (c u iid : Nat) (body : AdjustBody)
    (e : AppErr) (h : adjustStock s c u iid body = Except.error e) :
    runOp s (Op.adjust c u iid body) = s := by
  simp only [runOp, h]

theorem runOp_createB_error (s : St) (c u iid : Nat) (body : CreateBatchBody)
    (e : AppErr) (h : createBatch s c u iid body = Except.error e) :
    runOp s (Op.createB c u iid body) = s := by
  simp only [runOp, h]

/-- Claim C4: a stock adjustment is atomic in the sequential handler:
    every call either fails with an error and changes nothing (every
    throw in the handler precedes the first write), or inserts exactly
    the ledger row and, when a batch id is given, increments exactly
    that batch's quantity by the signed delta, leaving items and the id
    generator untouched; no other outcome exists. -/
theorem claim4_adjust_atomic (s : St) (c u iid : Nat) (body : AdjustBody) :
    (∃ e, adjustStock s c u iid body = Except.error e ∧
      runOp s (Op.adjust c u iid body) = s) ∨
    (∃ s1, adjustStock s c u iid body = Except.ok s1 ∧
      s1.adjustments = mkAdjRow iid u body :: s.adjustments ∧
      s1.items = s.items ∧ s1.nextId = s.nextId ∧
      ((body.batchId = none ∧ s1.batches = s.batches) ∨
       (∃ bid, body.batchId = some bid ∧
          s1.batches = s.batches.map (updBatch bid body.quantity)))) := by
  cases hres : adjustStock s c u iid body with
  | error e =>
    exact Or.inl ⟨e, rfl, runOp_adjust_error s c u iid body e hres⟩
  | ok s1 =>
    obtain ⟨hv, hitems, hnext, hadj, hdisj⟩ :=
      adjustStock_ok_shape s c u iid body s1 hres
    refine Or.inr ⟨s1, rfl, hadj, hitems, hnext, ?_⟩
    rcases hdisj with ⟨hb, hbs⟩ | ⟨bid, batch, hb, hfb, hg, hbs⟩
    · exact Or.inl ⟨hb, hbs⟩
    · exact Or.inr ⟨bid, hb, hbs⟩

/-- Claim C10: an adjust call without a batchId only appends the ledger
    row: it succeeds for any valid body (the insufficient-stock guard is
    never consulted, so any negative delta of any magnitude passes), the
    batches table is untouched, and every item's totalQuantity and
    stock status are identical before and after the call. -/
theorem claim10_no_batch_frame (s : St) (c u iid : Nat) (body : AdjustBody)
    (hb : body.batchId = none)
    (hv : validAdjustBody body = true)
    (hi : (findItem s c iid).isSome = true) :
    adjustStock s c u iid body = Except.ok { s with
      adjustments := mkAdjRow iid u body :: s.adjustments } ∧
    (runOp s (Op.adjust c u iid body)).batches = s.batches ∧
    (∀ iid2 : Nat,
      itemTotalQuantity (runOp s (Op.adjust c u iid body)).batches iid2
        = itemTotalQuantity s.batches iid2) ∧
    (∀ (iid2 : Nat) (thr : Int),
      getStockStatus
          (itemTotalQuantity (runOp s (Op.adjust c u iid body)).batches iid2)
          thr
        = getStockStatus (itemTotalQuantity s.batches iid2) thr) := by
  obtain ⟨it, hit⟩ := Option.isSome_iff_exists.mp hi
  have h1 : adjustStock s c u iid body = Except.ok { s with
      adjustments := mkAdjRow iid u body :: s.adjustments } := by
    unfold adjustStock
    rw [if_pos hv]
    simp only [hit, hb]
  have h2 : (runOp s (Op.adjust c u iid body)).batches = s.batches := by
    simp only [runOp, h1]
  exact ⟨h1, h2, fun iid2 => by rw [h2], fun iid2 thr => by rw [h2]⟩

theorem claim10_no_batch_frame_witness :
    itemTotalQuantity (runOp exS15 (Op.adjust 1 1 1 exOutNoBatch)).batches 1
      = itemTotalQuantity exS15.batches 1 :=
  (claim10_no_batch_frame exS15 1 1 1 exOutNoBatch rfl (by decide)
    (by decide)).2.2.1 1

/-- Claim C5 counterexample: at a batch holding 15 units an OUT
    adjustment of delta -16 fails, but with the ValidationError class
    (message Insufficient quantity in batch) — the same class the
    handler uses for malformed input and for a foreign batch id — not
    with a distinct InsufficientStockError, which the source never
    defines. -/
theorem claim5_cex :
    adjustStock exS15 1 1 1 exOut16 =
      Except.error (AppErr.validation "Insufficient quantity in batch") := by
  decide

/-- Claim C5 amended: for an adjust call with a batchId and an outbound
    type, if the batch's current quantity is below the absolute delta
    the call fails with ValidationError (message Insufficient quantity
    in batch) — not an InsufficientStockError class, which the source
    does not define — and no state change occurs; if the quantity is at
    least the absolute delta the adjustment succeeds. -/
theorem claim5_insufficient (s : St) (c u iid bid : Nat) (body : AdjustBody)
    (batch : Batch)
    (hb : body.batchId = some bid)
    (hv : validAdjustBody body = true)
    (hi : (findItem s c iid).isSome = true)
    (hf : findBatch s bid iid = some batch)
    (ht : isOutbound body.type = true) :
    (batch.quantity < |body.quantity| →
      adjustStock s c u iid body =
        Except.error (AppErr.validation "Insufficient quantity in batch") ∧
      runOp s (Op.adjust c u iid body) = s) ∧
    (|body.quantity| ≤ batch.quantity →
      adjustStock s c u iid body = Except.ok { s with
        adjustments := mkAdjRow iid u body :: s.adjustments,
        batches := s.batches.map (updBatch bid body.quantity) }) := by
  obtain ⟨it, hit⟩ := Option.isSome_iff_exists.mp hi
  constructor
  · intro hlt
    have herr : adjustStock s c u iid body =
        Except.error (AppErr.validation "Insufficient quantity in batch") := by
      unfold adjustStock
      rw [if_pos hv]
      simp only [hit, hb, hf]
      rw [if_pos (by simp [ht, hlt])]
    exact ⟨herr, runOp_adjust_error s c u iid body _ herr⟩
  · intro hge
    have hcond : ¬((isOutbound body.type &&
        decide (batch.quantity < |body.quantity|)) = true) := by
      simp only [Bool.and_eq_true, decide_eq_true_eq, not_and, not_lt]
      intro hx
      exact hge
    unfold adjustStock
    rw [if_pos hv]
    simp only [hit, hb, hf]
    rw [if_neg hcond]

theorem claim5_insufficient_witness :
    (adjustStock exS15 1 1 1 exOutBig =
       Except.error (AppErr.validation "Insufficient quantity in batch")) ∧
    runOp exS15 (Op.adjust 1 1 1 exOutBig) = exS15 :=
  (claim5_insufficient exS15 1 1 1 0 exOutBig exBatch15 rfl (by decide)
    (by decide) (by decide) rfl).1 (by decide)

theorem adjSum_cons (a : Adjustment) (adjs : List Adjustment) (i : Nat) :
    adjSum (a :: adjs) i =
      (if a.batchId = some i then a.quantity else 0) + adjSum adjs i := by
  unfold adjSum
  rw [List.filter_cons]
  by_cases hx : a.batchId = some i
  · simp [hx]
  · simp [hx]

theorem adjSum_eq_zero (adjs : List Adjustment) (n : Nat)
    (h : ∀ a ∈ adjs, ∀ i, a.batchId = some i → i < n) :
    adjSum adjs n = 0 := by
  unfold adjSum
  have hnil : (adjs.filter fun a => decide (a.batchId = some n)) = [] := by
    rw [List.filter_eq_nil_iff]
    intro a ham
    simp only [decide_eq_true_eq]
    intro heq
    exact absurd (h a ham n heq) (lt_irrefl n)
  rw [hnil]
  simp

theorem stInv_createBatch (s : St) (c u iid : Nat) (body : CreateBatchBody)
    (s1 : St) (hinv : StInv s) (h : createBatch s c u iid body = Except.ok s1) :
    StInv s1 := by
  obtain ⟨hv, hdup, hs1⟩ := createBatch_ok_shape s c u iid body s1 h
  obtain ⟨hid, hnodup, hpos, href, hcons, huniq⟩ := hinv
  subst hs1
  refine ⟨?_, ?_, ?_, ?_, ?_, ?_⟩
  · intro b hbm
    rcases List.mem_cons.mp hbm with rfl | hbm
    · simp [mkNewBatch]
    · exact Nat.lt_succ_of_lt (hid b hbm)
  · simp only [List.map_cons]
    rw [List.nodup_cons]
    refine ⟨?_, hnodup⟩
    intro hmem
    rcases List.mem_map.mp hmem with ⟨b, hbm, hbid⟩
    have := hid b hbm
    simp only [mkNewBatch] at hbid
    omega
  · intro b hbm
    rcases List.mem_cons.mp hbm with rfl | hbm
    · have hq := hv
      simp only [validCreateBatchBody, Bool.and_eq_true, decide_eq_true_eq]
        at hq
      simpa [mkNewBatch] using hq.2
    · exact hpos b hbm
  · intro a ham i hai
    rcases List.mem_cons.mp ham with rfl | ham
    · simp only [mkInitialAdj, Option.some.injEq] at hai
      show i < s.nextId + 1
      omega
    · exact Nat.lt_succ_of_lt (href a ham i hai)
  · intro b hbm
    rcases List.mem_cons.mp hbm with rfl | hbm
    · rw [adjSum_cons]
      have hz : adjSum s.adjustments (mkNewBatch s iid body).id = 0 := by
        apply adjSum_eq_zero
        intro a ham i hai
        simpa [mkNewBatch] using href a ham i hai
      rw [hz]
      simp [mkInitialAdj, mkNewBatch]
    · rw [adjSum_cons]
      have hne : ¬((mkInitialAdj s u iid body).batchId = some b.id) := by
        simp only [mkInitialAdj, Option.some.injEq]
        have := hid b hbm
        omega
      rw [if_neg hne]
      simpa using hcons b hbm
  · refine List.Pairwise.cons ?_ huniq
    intro b hbm hitem
    have hb1 : b.itemId = iid := by
      simp only [mkNewBatch] at hitem
      omega
    intro hnum
    exact hdup b hbm hb1 (by simpa [mkNewBatch] using hnum.symm)

theorem updBatch_id (bid : Nat) (q : Int) (b : Batch) :
    (updBatch bid q b).id = b.id := by
  unfold updBatch
  by_cases hx : b.id = bid <;> simp [hx]

theorem updBatch_itemId (bid : Nat) (q : Int) (b : Batch) :
    (updBatch bid q b).itemId = b.itemId := by
  unfold updBatch
  by_cases hx : b.id = bid <;> simp [hx]

theorem updBatch_batchNumber (bid : Nat) (q : Int) (b : Batch) :
    (updBatch bid q b).batchNumber = b.batchNumber := by
  unfold updBatch
  by_cases hx : b.id = bid <;> simp [hx]

theorem updBatch_of_ne (bid : Nat) (q : Int) (b : Batch) (hx : ¬b.id = bid) :
    updBatch bid q b = b := by
  unfold updBatch
  simp [hx]

theorem updBatch_quantity_of_eq (bid : Nat) (q : Int) (b : Batch)
    (hx : b.id = bid) : (updBatch bid q b).quantity = b.quantity + q := by
  unfold updBatch
  simp [hx]

theorem stInv_adjust (s : St) (c u iid : Nat) (body : AdjustBody) (s1 : St)
    (hinv : StInv s) (h : adjustStock s c u iid body = Except.ok s1) :
    StInv s1 := by
  obtain ⟨hv, hitems, hnext, hadj, hdisj⟩ :=
    adjustStock_ok_shape s c u iid body s1 h
  obtain ⟨hid, hnodup, hpos, href, hcons, huniq⟩ := hinv
  rcases hdisj with ⟨hb, hbs⟩ | ⟨bid, batch, hb, hf, hg, hbs⟩
  · refine ⟨?_, ?_, ?_, ?_, ?_, ?_⟩
    · intro b hbm
      rw [hnext]
      exact hid b (hbs ▸ hbm)
    · rw [hbs]
      exact hnodup
    · intro b hbm
      exact hpos b (hbs ▸ hbm)
    · intro a ham i hai
      rw [hnext]
      rw [hadj] at ham
      rcases List.mem_cons.mp ham with rfl | ham
      · simp [mkAdjRow, hb] at hai
      · exact href a ham i hai
    · intro b hbm
      rw [hadj, adjSum_cons]
      rw [if_neg (by simp [mkAdjRow, hb])]
      rw [hbs] at hbm
      simpa using hcons b hbm
    · rw [hbs]
      exact huniq
  · obtain ⟨hbatchmem, hbid, hbitem⟩ := findBatch_eq_some s bid iid batch hf
    have hsign : validAdjustQuantity body.type body.quantity = true := by
      simp only [validAdjustBody, Bool.and_eq_true] at hv
      exact hv.1.1
    have hquant : 0 ≤ batch.quantity + body.quantity := by
      by_cases hout : isOutbound body.type = true
      · have hge := hg hout
        have hqle : body.quantity ≤ 0 := by
          unfold validAdjustQuantity at hsign
          rw [if_pos hout] at hsign
          exact of_decide_eq_true hsign
        have habs : |body.quantity| = -body.quantity := abs_of_nonpos hqle
        rw [habs] at hge
        omega
      · have hqpos : 0 < body.quantity := by
          unfold validAdjustQuantity at hsign
          rw [if_neg hout] at hsign
          exact of_decide_eq_true hsign
        have := hpos batch hbatchmem
        omega
    refine ⟨?_, ?_, ?_, ?_, ?_, ?_⟩
    · intro b hbm
      rw [hnext]
      rw [hbs] at hbm
      rcases List.mem_map.mp hbm with ⟨b0, hb0, rfl⟩
      rw [updBatch_id]
      exact hid b0 hb0
    · rw [hbs, List.map_map]
      rw [show s.batches.map (Batch.id ∘ updBatch bid body.quantity)
          = s.batches.map Batch.id from
        List.map_congr_left fun b hbm => updBatch_id bid body.quantity b]
      exact hnodup
    · intro b hbm
      rw [hbs] at hbm
      rcases List.mem_map.mp hbm with ⟨b0, hb0, rfl⟩
      by_cases hx : b0.id = bid
      · have hb0batch : b0 = batch :=
          List.inj_on_of_nodup_map hnodup hb0 hbatchmem (by rw [hx, hbid])
        rw [updBatch_quantity_of_eq bid body.quantity b0 hx, hb0batch]
        exact hquant
      · rw [updBatch_of_ne bid body.quantity b0 hx]
        exact hpos b0 hb0
    · intro a ham i hai
      rw [hnext]
      rw [hadj] at ham
      rcases List.mem_cons.mp ham with rfl | ham
      · simp only [mkAdjRow, hb, Option.some.injEq] at hai
        have hblt := hid batch hbatchmem
        rw [hbid] at hblt
        omega
      · exact href a ham i hai
    · intro b hbm
      rw [hadj, adjSum_cons]
      rw [hbs] at hbm
      rcases List.mem_map.mp hbm with ⟨b0, hb0, rfl⟩
      have hrid : (mkAdjRow iid u body).batchId = some bid := by
        simp [mkAdjRow, hb]
      by_cases hx : b0.id = bid
      · rw [if_pos (by rw [hrid, updBatch_id, hx])]
        rw [updBatch_id, updBatch_quantity_of_eq bid body.quantity b0 hx]
        rw [hcons b0 hb0]
        show body.quantity + b0.quantity = b0.quantity + body.quantity
        omega
      · have hne : ¬((mkAdjRow iid u body).batchId
            = some ((updBatch bid body.quantity b0).id)) := by
          rw [hrid, updBatch_id]
          intro hc
          simp only [Option.some.injEq] at hc
          exact hx hc.symm
        rw [if_neg hne]
        rw [updBatch_of_ne bid body.quantity b0 hx]
        rw [hcons b0 hb0]
        omega
    · rw [hbs]
      rw [List.pairwise_map]
      refine huniq.imp ?_
      intro a b hrel
      rw [updBatch_itemId, updBatch_itemId, updBatch_batchNumber,
        updBatch_batchNumber]
      exact hrel

theorem stInv_runOp (s : St) (op : Op) (h : StInv s) : StInv (runOp s op) := by
  cases op with
  | createB c u iid body =>
    simp only [runOp]
    cases hres : createBatch s c u iid body with
    | ok s1 => exact stInv_createBatch s c u iid body s1 h hres
    | error e => exact h
  | adjust c u iid body =>
    simp only [runOp]
    cases hres : adjustStock s c u iid body with
    | ok s1 => exact stInv_adjust s c u iid body s1 h hres
    | error e => exact h

theorem stInv_run (s : St) (ops : List Op) (h : StInv s) : StInv (run s ops) := by
  induction ops generalizing s with
  | nil => exact h
  | cons op ops ih => exact ih (runOp s op) (stInv_runOp s op h)

theorem stInv_mkInit (items : List Item) : StInv (mkInit items) := by
  refine ⟨?_, ?_, ?_, ?_, ?_, ?_⟩ <;> simp [mkInit]

/-- Claim C1: starting from a database with no batches, after any
    sequence of batch-creation and stock-adjustment calls every batch's
    quantity is non-negative: negative deltas pass validation only for
    the guarded outbound types, the guard rejects any delta exceeding
    the target batch's current quantity before anything is written, and
    so no reachable state holds a batch with negative quantity. -/
theorem claim1_batch_quantity_nonneg (items : List Item) (ops : List Op) :
    ∀ b ∈ (run (mkInit items) ops).batches, 0 ≤ b.quantity :=
  (stInv_run (mkInit items) ops (stInv_mkInit items)).2.2.1

theorem claim1_batch_quantity_nonneg_witness :
    (0 : Int) ≤ (mkNewBatch exS0 1 exCreate).quantity :=
  claim1_batch_quantity_nonneg [exItem] [Op.createB 1 1 1 exCreate]
    (mkNewBatch exS0 1 exCreate) (by decide)

/-- Claim C2: starting from a database with no batches, after any
    sequence of batch-creation and stock-adjustment calls, for every
    batch the signed deltas of the ledger rows referencing it (the
    initial IN row written at batch creation included) sum to the
    batch's current quantity. -/
theorem claim2_quantity_conservation (items : List Item) (ops : List Op) :
    ∀ b ∈ (run (mkInit items) ops).batches,
      adjSum (run (mkInit items) ops).adjustments b.id = b.quantity :=
  (stInv_run (mkInit items) ops (stInv_mkInit items)).2.2.2.2.1

theorem claim2_quantity_conservation_witness :
    adjSum (run (mkInit [exItem]) [Op.createB 1 1 1 exCreate]).adjustments
        (mkNewBatch exS0 1 exCreate).id
      = (mkNewBatch exS0 1 exCreate).quantity :=
  claim2_quantity_conservation [exItem] [Op.createB 1 1 1 exCreate]
    (mkNewBatch exS0 1 exCreate) (by decide)

/-- Claim C9 counterexample: creating a second batch with the duplicate
    number B1 for the same item fails with the ValidationError class,
    not with ConflictError: the ConflictError class exists in the error
    handler (it is used for database unique-constraint violations), but
    the route's duplicate check fires first and throws ValidationError. -/
theorem claim9_cex :
    createBatch exS1 1 1 1 exCreate =
      Except.error
        (AppErr.validation "Batch number already exists for this item") := by
  decide

/-- Claim C9 amended: creating a batch whose number duplicates an
    existing batch number of the same item fails with ValidationError
    (message Batch number already exists for this item) — not
    ConflictError — and creates no batch and no ledger row; batch
    numbers stay unique per item in every reachable state. -/
theorem claim9_duplicate_batch_number :
    (∀ (s : St) (c u iid : Nat) (body : CreateBatchBody),
      validCreateBatchBody body = true →
      (findItem s c iid).isSome = true →
      (∃ b ∈ s.batches, b.itemId = iid ∧ b.batchNumber = body.batchNumber) →
      createBatch s c u iid body =
        Except.error
          (AppErr.validation "Batch number already exists for this item") ∧
      runOp s (Op.createB c u iid body) = s) ∧
    (∀ (items : List Item) (ops : List Op),
      (run (mkInit items) ops).batches.Pairwise
        fun b1 b2 => b1.itemId = b2.itemId → b1.batchNumber ≠ b2.batchNumber) := by
  constructor
  · intro s c u iid body hv hi hex
    obtain ⟨it, hit⟩ := Option.isSome_iff_exists.mp hi
    have hany : (s.batches.any
        fun b => b.itemId == iid && b.batchNumber == body.batchNumber) = true := by
      rw [List.any_eq_true]
      obtain ⟨b, hbm, h1, h2⟩ := hex
      exact ⟨b, hbm, by simp [h1, h2]⟩
    have herr : createBatch s c u iid body = Except.error
        (AppErr.validation "Batch number already exists for this item") := by
      unfold createBatch
      rw [if_pos hv]
      simp only [hit]
      rw [if_pos hany]
    exact ⟨herr, runOp_createB_error s c u iid body _ herr⟩
  · intro items ops
    exact (stInv_run (mkInit items) ops (stInv_mkInit items)).2.2.2.2.2

theorem claim9_duplicate_batch_number_witness :
    (createBatch exS15 1 1 1 exCreate =
       Except.error
         (AppErr.validation "Batch number already exists for this item")) ∧
    runOp exS15 (Op.createB 1 1 1 exCreate) = exS15 :=
  claim9_duplicate_batch_number.1 exS15 1 1 1 exCreate (by decide) (by decide)
    ⟨exBatch15, by decide, rfl, rfl⟩

theorem flagLe_rfl (a : Alert) : flagLe a a :=
  ⟨fun h => h, fun h => h⟩

theorem readUpd_flagLe (aid : Nat) (a : Alert) : flagLe a (readUpd aid a) := by
  unfold readUpd flagLe
  by_cases hx : a.id = aid <;> simp [hx]

theorem readUpd_isResolved (aid : Nat) (a : Alert) :
    (readUpd aid a).isResolved = a.isResolved := by
  unfold readUpd
  by_cases hx : a.id = aid <;> simp [hx]

theorem resolveUpd_flagLe (aid : Nat) (a : Alert) :
    flagLe a (resolveUpd aid a) := by
  unfold resolveUpd flagLe
  by_cases hx : a.id = aid <;> simp [hx]

theorem bulkReadUpd_flagLe (ids : List Nat) (a : Alert) :
    flagLe a (bulkReadUpd ids a) := by
  unfold bulkReadUpd flagLe
  split <;> simp

theorem bulkReadUpd_isResolved (ids : List Nat) (a : Alert) :
    (bulkReadUpd ids a).isResolved = a.isResolved := by
  unfold bulkReadUpd
  split <;> simp

theorem runAOp_shape (s : AlertSt) (op : AOp) :
    (∃ a, (runAOp s op).alerts = a :: s.alerts ∧
       a.isRead = false ∧ a.isResolved = false) ∨
    (runAOp s op).alerts = s.alerts ∨
    (∃ f : Alert → Alert, (runAOp s op).alerts = s.alerts.map f ∧
       (∀ a, flagLe a (f a)) ∧
       (∀ a, (f a).isResolved = true →
          a.isResolved = true ∨ (f a).isRead = true)) := by
  cases op with
  | testA c rid =>
    simp only [runAOp]
    cases hres : testRule s c rid with
    | error e => exact Or.inr (Or.inl rfl)
    | ok s1 =>
      unfold testRule at hres
      rcases hr : findRule s c rid with _ | rule
      · rw [hr] at hres
        exact absurd hres (by simp)
      · rw [hr] at hres
        injection hres with hres
        subst hres
        exact Or.inl ⟨mkTestAlert s rule, rfl, rfl, rfl⟩
  | readA c aid =>
    simp only [runAOp]
    cases hres : markRead s c aid with
    | error e => exact Or.inr (Or.inl rfl)
    | ok s1 =>
      unfold markRead at hres
      rcases hfind : s.alerts.find?
          (fun a => a.id == aid && alertInClinic s c a) with _ | a0
      · rw [hfind] at hres
        exact absurd hres (by simp)
      · rw [hfind] at hres
        injection hres with hres
        subst hres
        refine Or.inr (Or.inr ⟨readUpd aid, rfl, readUpd_flagLe aid, ?_⟩)
        intro a ha
        rw [readUpd_isResolved] at ha
        exact Or.inl ha
  | resolveA c aid =>
    simp only [runAOp]
    cases hres : resolveAlert s c aid with
    | error e => exact Or.inr (Or.inl rfl)
    | ok s1 =>
      unfold resolveAlert at hres
      rcases hfind : s.alerts.find?
          (fun a => a.id == aid && alertInClinic s c a) with _ | a0
      · rw [hfind] at hres
        exact absurd hres (by simp)
      · rw [hfind] at hres
        injection hres with hres
        subst hres
        refine Or.inr (Or.inr ⟨resolveUpd aid, rfl, resolveUpd_flagLe aid, ?_⟩)
        intro a ha
        by_cases hx : a.id = aid
        · refine Or.inr ?_
          unfold resolveUpd
          simp [hx]
        · refine Or.inl ?_
          unfold resolveUpd at ha
          simpa [hx] using ha
  | bulkReadA c ids =>
    simp only [runAOp]
    cases hres : bulkRead s c ids with
    | error e => exact Or.inr (Or.inl rfl)
    | ok s1 =>
      unfold bulkRead at hres
      by_cases h1 : ids.length < 1
      · rw [if_pos h1] at hres
        exact absurd hres (by simp)
      · rw [if_neg h1] at hres
        by_cases h2 : (s.alerts.filter fun a =>
            ids.contains a.id && alertInClinic s c a).length ≠ ids.length
        · rw [if_pos h2] at hres
          exact absurd hres (by simp)
        · rw [if_neg h2] at hres
          injection hres with hres
          subst hres
          refine Or.inr (Or.inr ⟨bulkReadUpd ids, rfl, bulkReadUpd_flagLe ids, ?_⟩)
          intro a ha
          rw [bulkReadUpd_isResolved] at ha
          exact Or.inl ha

theorem alertInvariant_runAOp (s : AlertSt) (op : AOp)
    (h : ∀ a ∈ s.alerts, a.isResolved = true → a.isRead = true) :
    ∀ a ∈ (runAOp s op).alerts, a.isResolved = true → a.isRead = true := by
  rcases runAOp_shape s op with ⟨a0, he, hr, hv⟩ | he | ⟨f, he, hf, hp⟩
  · rw [he]
    intro a ha
    rcases List.mem_cons.mp ha with rfl | ha
    · intro hres
      rw [hv] at hres
      exact absurd hres (by simp)
    · exact h a ha
  · rw [he]
    exact h
  · rw [he]
    intro a ha
    rcases List.mem_map.mp ha with ⟨b, hb, rfl⟩
    intro hres
    rcases hp b hres with h1 | h2
    · exact (hf b).1 (h b hb h1)
    · exact h2

theorem alertInvariant_run (s : AlertSt) (ops : List AOp)
    (h : ∀ a ∈ s.alerts, a.isResolved = true → a.isRead = true) :
    ∀ a ∈ (runAlert s ops).alerts, a.isResolved = true → a.isRead = true := by
  induction ops generalizing s with
  | nil => exact h
  | cons op ops ih => exact ih (runAOp s op) (alertInvariant_runAOp s op h)

theorem runAlert_flag_monotone (s : AlertSt) (ops : List AOp) :
    ∃ l1 l2, (runAlert s ops).alerts = l1 ++ l2 ∧
      List.Forall₂ flagLe s.alerts l2 := by
  induction ops generalizing s with
  | nil => exact ⟨[], s.alerts, rfl, List.forall₂_same.mpr fun a _ => flagLe_rfl a⟩
  | cons op ops ih =>
    obtain ⟨m1, m2, he, hm⟩ := ih (runAOp s op)
    rcases runAOp_shape s op with ⟨a0, hsh, _, _⟩ | hsh | ⟨f, hsh, hf, _⟩
    · rw [hsh] at hm
      have hsplit : ∃ b l, m2 = b :: l ∧ flagLe a0 b ∧
          List.Forall₂ flagLe s.alerts l := by
        cases hm with
        | cons h1 h2 => exact ⟨_, _, rfl, h1, h2⟩
      obtain ⟨b, l, rfl, hab, htail⟩ := hsplit
      refine ⟨m1 ++ [b], l, ?_, htail⟩
      show (runAlert (runAOp s op) ops).alerts = (m1 ++ [b]) ++ l
      rw [he]
      simp
    · rw [hsh] at hm
      exact ⟨m1, m2, he, hm⟩
    · rw [hsh] at hm
      have hm2 : List.Forall₂ (fun a b => flagLe (f a) b) s.alerts m2 :=
        List.forall₂_map_left_iff.mp hm
      have hm3 : List.Forall₂ flagLe s.alerts m2 := by
        refine hm2.imp ?_
        intro a b hab
        exact ⟨fun hr => hab.1 ((hf a).1 hr), fun hrs => hab.2 ((hf a).2 hrs)⟩
      exact ⟨m1, m2, he, hm3⟩

theorem resolveAlert_sets_flags (s : AlertSt) (c aid : Nat) (s1 : AlertSt)
    (h : resolveAlert s c aid = Except.ok s1) :
    ∀ a ∈ s1.alerts, a.id = aid → a.isRead = true ∧ a.isResolved = true := by
  unfold resolveAlert at h
  rcases hfind : s.alerts.find?
      (fun a => a.id == aid && alertInClinic s c a) with _ | a0
  · rw [hfind] at h
    exact absurd h (by simp)
  · rw [hfind] at h
    injection h with h
    subst h
    intro a ha hid2
    rcases List.mem_map.mp ha with ⟨b, hb, rfl⟩
    by_cases hx : b.id = aid
    · unfold resolveUpd
      simp [hx]
    · have hbb : resolveUpd aid b = b := by
        unfold resolveUpd
        simp [hx]
      rw [hbb] at hid2
      exact absurd hid2 hx

/-- Claim C8: the alert lifecycle is one-directional: over any sequence
    of alert calls (creation, mark-read, resolve, bulk-read) the
    invariant isResolved implies isRead is preserved from any state
    satisfying it; no call unsets isRead or isResolved on a surviving
    alert (each pre-existing alert evolves to a flag-upgraded version of
    itself, newly created alerts forming a prefix); and a successful
    resolve force-sets isRead together with isResolved on its target in
    the same update. -/
theorem claim8_alert_lifecycle (s : AlertSt) (ops : List AOp) :
    ((∀ a ∈ s.alerts, a.isResolved = true → a.isRead = true) →
      ∀ a ∈ (runAlert s ops).alerts, a.isResolved = true → a.isRead = true) ∧
    (∃ l1 l2, (runAlert s ops).alerts = l1 ++ l2 ∧
      List.Forall₂ flagLe s.alerts l2) ∧
    (∀ (c aid : Nat) (s1 : AlertSt), resolveAlert s c aid = Except.ok s1 →
      ∀ a ∈ s1.alerts, a.id = aid → a.isRead = true ∧ a.isResolved = true) := by
  refine ⟨?_, runAlert_flag_monotone s ops, ?_⟩
  · intro h
    exact alertInvariant_run s ops h
  · intro c aid s1 h
    exact resolveAlert_sets_flags s c aid s1 h

theorem claim8_alert_lifecycle_witness :
    ((runAlert exAlerts1 [AOp.resolveA 1 0]).alerts.getD 0 exOpenAlert).isRead
      = true :=
  (claim8_alert_lifecycle exAlerts1 [AOp.resolveA 1 0]).1 (by decide)
    ((runAlert exAlerts1 [AOp.resolveA 1 0]).alerts.getD 0 exOpenAlert)
    (by decide) (by decide)
